import Mathlib

/-!
Verification of the core logic of a multi-tenant RAG chat gateway
(`src/index.js`): bounded conversation-history buckets, the retrieval and
generation pipeline, document ingestion, the agent registry, and the
Telegram bot connection supervisor.  Each section embeds the relevant
JavaScript functions as Lean definitions and proves (or refutes) the
corresponding specification claims.
-/

namespace Mealme

/-! ## Conversation memory (`addTelegramMessage`, `addDashboardMessage`) -/

/-- One conversation turn, `{ role, text }` in the source. -/
structure Turn where
  role : String
  text : String
  deriving DecidableEq, Repr

/-- JavaScript `list.slice(-5)`: the last five elements (the whole list when
it has at most five elements). -/
def lastFive {α : Type} (l : List α) : List α :=
  l.drop (l.length - 5)

/-- The bucket append step shared by `addTelegramMessage` and
`addDashboardMessage`: `push({role, text})`, then truncate to `slice(-5)`
when the length exceeds 5. -/
def bucketPush (h : List Turn) (t : Turn) : List Turn :=
  let h2 := h ++ [t]
  if 5 < h2.length then h2.drop (h2.length - 5) else h2

/-- Global history state: `telegramHistory[agentId][chatId]` and
`dashboardHistory[sessionId]`; a missing key denotes the empty bucket,
matching the lazy `{}` / `[]` initialization in the source. -/
structure HistState where
  telegram : String → String → List Turn
  dashboard : String → List Turn

/-- `addTelegramMessage(agentId, chatId, role, text)` from `src/index.js`. -/
def addTelegramMessage (s : HistState) (agentId chatId role text : String) : HistState :=
  { s with telegram := fun a c =>
      if a = agentId then
        if c = chatId then bucketPush (s.telegram agentId chatId) ⟨role, text⟩
        else s.telegram a c
      else s.telegram a c }

/-- `addDashboardMessage(sessionId, role, text)` from `src/index.js`. -/
def addDashboardMessage (s : HistState) (sessionId role text : String) : HistState :=
  { s with dashboard := fun k =>
      if k = sessionId then bucketPush (s.dashboard sessionId) ⟨role, text⟩
      else s.dashboard k }

/-- One append event against either history store. -/
inductive HistEvent where
  | tg (agentId chatId role text : String)
  | db (sessionId role text : String)

/-- Dispatch one event to the store it targets. -/
def stepHist (s : HistState) : HistEvent → HistState
  | HistEvent.tg a c r t => addTelegramMessage s a c r t
  | HistEvent.db k r t => addDashboardMessage s k r t

/-- Both stores start empty. -/
def histInit : HistState :=
  { telegram := fun _ _ => [], dashboard := fun _ => [] }

/-- Run a sequence of append events from the empty stores. -/
def runHist (evs : List HistEvent) : HistState :=
  evs.foldl stepHist histInit

/-- The turns a given event sequence appends to Telegram bucket `(a, c)`. -/
def tgTurns (evs : List HistEvent) (a c : String) : List Turn :=
  evs.filterMap fun e =>
    match e with
    | HistEvent.tg a' c' r t => if a' = a ∧ c' = c then some ⟨r, t⟩ else none
    | HistEvent.db _ _ _ => none

/-- The turns a given event sequence appends to dashboard bucket `k`. -/
def dbTurns (evs : List HistEvent) (k : String) : List Turn :=
  evs.filterMap fun e =>
    match e with
    | HistEvent.tg _ _ _ _ => none
    | HistEvent.db k' r t => if k' = k then some ⟨r, t⟩ else none

theorem length_lastFive {α : Type} (l : List α) :
    (lastFive l).length = min l.length 5 := by
  simp only [lastFive, List.length_drop]
  omega

theorem lastFive_of_length_le {α : Type} (l : List α) (h : l.length ≤ 5) :
    lastFive l = l := by
  simp only [lastFive]
  have : l.length - 5 = 0 := by omega
  simp [this]

theorem lastFive_append_left {α : Type} (xs ts : List α) :
    lastFive (lastFive xs ++ ts) = lastFive (xs ++ ts) := by
  simp only [lastFive, List.length_append, List.length_drop]
  have hle : xs.length - 5 ≤ xs.length := Nat.sub_le _ _
  rw [← List.drop_append_of_le_length hle, List.drop_drop]
  congr 1
  omega

theorem bucketPush_eq_lastFive (h : List Turn) (t : Turn) :
    bucketPush h t = lastFive (h ++ [t]) := by
  unfold bucketPush lastFive
  by_cases h5 : 5 < (h ++ [t]).length
  · rw [if_pos h5]
  · rw [if_neg h5]
    have h0 : (h ++ [t]).length - 5 = 0 := by omega
    rw [h0, List.drop_zero]

theorem length_bucketPush_le (h : List Turn) (t : Turn) :
    (bucketPush h t).length ≤ 5 := by
  rw [bucketPush_eq_lastFive, length_lastFive]
  omega

theorem foldl_bucketPush (ts : List Turn) :
    ∀ h : List Turn, h.length ≤ 5 →
      ts.foldl bucketPush h = lastFive (h ++ ts) := by
  induction ts with
  | nil => intro h hh; simp [lastFive_of_length_le h hh]
  | cons t ts ih =>
    intro h hh
    have hlen : (bucketPush h t).length ≤ 5 := length_bucketPush_le h t
    calc (t :: ts).foldl bucketPush h
        = ts.foldl bucketPush (bucketPush h t) := rfl
      _ = lastFive (bucketPush h t ++ ts) := ih _ hlen
      _ = lastFive (lastFive (h ++ [t]) ++ ts) := by rw [bucketPush_eq_lastFive]
      _ = lastFive ((h ++ [t]) ++ ts) := lastFive_append_left _ _
      _ = lastFive (h ++ t :: ts) := by simp

theorem foldl_stepHist_telegram (evs : List HistEvent) :
    ∀ (s : HistState) (a c : String),
      ((evs.foldl stepHist s).telegram a c) =
        (tgTurns evs a c).foldl bucketPush (s.telegram a c) := by
  induction evs with
  | nil => intro s a c; rfl
  | cons e evs ih =>
    intro s a c
    cases e with
    | tg a' c' r t =>
      by_cases hac : a' = a ∧ c' = c
      · obtain ⟨ha, hc⟩ := hac
        subst ha; subst hc
        have hstep : (stepHist s (HistEvent.tg a' c' r t)).telegram a' c' =
            bucketPush (s.telegram a' c') ⟨r, t⟩ := by
          simp [stepHist, addTelegramMessage]
        have htg : tgTurns (HistEvent.tg a' c' r t :: evs) a' c' =
            Turn.mk r t :: tgTurns evs a' c' := by
          simp [tgTurns]
        rw [List.foldl_cons, ih, hstep, htg, List.foldl_cons]
      · have hstep : (stepHist s (HistEvent.tg a' c' r t)).telegram a c =
            s.telegram a c := by
          simp only [stepHist, addTelegramMessage]
          by_cases ha : a = a'
          · subst ha
            have hc : ¬(c = c') := fun hcc => hac ⟨rfl, hcc.symm⟩
            simp [hc]
          · simp [ha]
        have htg : tgTurns (HistEvent.tg a' c' r t :: evs) a c =
            tgTurns evs a c := by
          simp only [tgTurns, List.filterMap_cons]
          have : ¬(a' = a ∧ c' = c) := hac
          simp [this]
        rw [List.foldl_cons, ih, hstep, htg]
    | db k r t =>
      have hstep : (stepHist s (HistEvent.db k r t)).telegram a c =
          s.telegram a c := rfl
      have htg : tgTurns (HistEvent.db k r t :: evs) a c = tgTurns evs a c := by
        simp [tgTurns]
      rw [List.foldl_cons, ih, hstep, htg]

theorem foldl_stepHist_dashboard (evs : List HistEvent) :
    ∀ (s : HistState) (k : String),
      ((evs.foldl stepHist s).dashboard k) =
        (dbTurns evs k).foldl bucketPush (s.dashboard k) := by
  induction evs with
  | nil => intro s k; rfl
  | cons e evs ih =>
    intro s k
    cases e with
    | tg a' c' r t =>
      have hstep : (stepHist s (HistEvent.tg a' c' r t)).dashboard k =
          s.dashboard k := rfl
      have hdb : dbTurns (HistEvent.tg a' c' r t :: evs) k = dbTurns evs k := by
        simp [dbTurns]
      rw [List.foldl_cons, ih, hstep, hdb]
    | db k' r t =>
      by_cases hk : k' = k
      · subst hk
        have hstep : (stepHist s (HistEvent.db k' r t)).dashboard k' =
            bucketPush (s.dashboard k') ⟨r, t⟩ := by
          simp [stepHist, addDashboardMessage]
        have hdb : dbTurns (HistEvent.db k' r t :: evs) k' =
            Turn.mk r t :: dbTurns evs k' := by
          simp [dbTurns]
        rw [List.foldl_cons, ih, hstep, hdb, List.foldl_cons]
      · have hstep : (stepHist s (HistEvent.db k' r t)).dashboard k =
            s.dashboard k := by
          simp only [stepHist, addDashboardMessage]
          have : ¬(k = k') := fun h => hk h.symm
          simp [this]
        have hdb : dbTurns (HistEvent.db k' r t :: evs) k = dbTurns evs k := by
          simp [dbTurns, hk]
        rw [List.foldl_cons, ih, hstep, hdb]

/-- C1: after any sequence of appends via `addTelegramMessage` /
`addDashboardMessage`, every Telegram bucket (keyed by agent id + chat id)
and every dashboard bucket (keyed by session key) holds exactly the last
`min(N, 5)` turns appended to it, oldest first; each single append keeps
only the last five of the extended bucket, so the oldest turn is evicted
once the window is full. -/
theorem history_bucket_window_c1 (evs : List HistEvent) (a c k : String) :
    (runHist evs).telegram a c = lastFive (tgTurns evs a c) ∧
    ((runHist evs).telegram a c).length = min (tgTurns evs a c).length 5 ∧
    (runHist evs).dashboard k = lastFive (dbTurns evs k) ∧
    ((runHist evs).dashboard k).length = min (dbTurns evs k).length 5 ∧
    (∀ (h : List Turn) (t : Turn), bucketPush h t = lastFive (h ++ [t])) := by
  have htel : (runHist evs).telegram a c = lastFive (tgTurns evs a c) := by
    rw [runHist, foldl_stepHist_telegram]
    have : (histInit.telegram a c) = [] := rfl
    rw [this, foldl_bucketPush _ [] (by simp)]
    simp
  have hdash : (runHist evs).dashboard k = lastFive (dbTurns evs k) := by
    rw [runHist, foldl_stepHist_dashboard]
    have : (histInit.dashboard k) = [] := rfl
    rw [this, foldl_bucketPush _ [] (by simp)]
    simp
  refine ⟨htel, ?_, hdash, ?_, bucketPush_eq_lastFive⟩
  · rw [htel, length_lastFive]
  · rw [hdash, length_lastFive]

/-! ## Retrieval (`searchDocs`) and generation (`askLLM`) -/

/-- A JavaScript value as it can appear in a JSON request body field, as far
as the admin handler inspects it: `undefined` (absent field), `null`, `NaN`
or a finite number.  The handler guards numeric assignments with
`!isNaN(v)` and otherwise stores the raw value. -/
inductive JVal where
  | undef
  | jnull
  | nan
  | num (x : Rat)
  deriving DecidableEq, Repr

/-- JavaScript global `isNaN(v)`: coerces with `ToNumber` first, so
`undefined` and `NaN` are NaN while `null` coerces to `0`. -/
def jsIsNaN : JVal → Bool
  | JVal.undef => true
  | JVal.nan => true
  | JVal.jnull => false
  | JVal.num _ => false

/-- One agent record as stored in the `agents` table. -/
structure Agent where
  id : String
  name : String
  instruction : String
  temperature : JVal
  topP : JVal
  topK : JVal
  collection : String
  telegramToken : String
  deriving DecidableEq, Repr

/-- `searchDocs(collection, query, topK)`: the external work (embedding the
query and running the vector search) is abstracted as its outcome —
`none` when any step throws, `some texts` for the ranked payload texts the
search returned.  On success the texts are joined with the two-character
literal `\\n` exactly as `results.map((r) => r.payload.text).join('\\n')`
does; on failure the catch block returns the empty string. -/
def searchDocs (backend : Option (List String)) : String :=
  match backend with
  | none => ""
  | some texts => String.intercalate "\\n" texts

/-- One chat-completion message. -/
structure Msg where
  role : String
  content : String
  deriving DecidableEq, Repr

/-- The request body `askLLM` posts to the generation backend. -/
structure ChatRequest where
  model : String
  messages : List Msg
  temperature : JVal
  top_p : JVal
  deriving DecidableEq, Repr

/-- Role mapping applied to each history turn: `'bot'` becomes
`'assistant'`, anything else is passed through. -/
def mapTurn (m : Turn) : Msg :=
  ⟨if m.role = "bot" then "assistant" else m.role, m.text⟩

/-- The ordered message list `askLLM` builds: the system instruction (or the
generic default when the agent's instruction is empty/falsy), then
`history.slice(-5)` role-mapped, then one user message that prefixes the
question with the context and a blank line when the context is non-empty. -/
def askLLMMessages (agent : Agent) (context question : String) (history : List Turn) : List Msg :=
  ⟨"system", if agent.instruction = "" then "You are a helpful assistant." else agent.instruction⟩
    :: (lastFive history).map mapTurn
    ++ [⟨"user", if context = "" then question else context ++ "\n\n" ++ question⟩]

/-- The full request `askLLM` posts, carrying the agent's sampling
parameters. -/
def askLLMRequest (agent : Agent) (context question : String) (history : List Turn) : ChatRequest :=
  { model := "gpt-4.1-mini"
    messages := askLLMMessages agent context question history
    temperature := agent.temperature
    top_p := agent.topP }

/-- The fixed fallback answer returned by `askLLM`'s catch block. -/
def llmFallback : String := "Sorry, could not generate an answer."

/-- `askLLM(agent, context, question, history)`: the backend call is
abstracted as a function from the posted request to its outcome — `none`
when the HTTP call fails, `some choices` for the returned choice contents.
A missing first choice (malformed response) makes
`res.data.choices[0].message.content` throw, which the catch block turns
into the fallback string as well. -/
def askLLM (gen : ChatRequest → Option (List String)) (agent : Agent)
    (context question : String) (history : List Turn) : String :=
  match gen (askLLMRequest agent context question history) with
  | none => llmFallback
  | some [] => llmFallback
  | some (c :: _) => c.trim

/-- The web chat route `POST /chat/:id`: retrieve context, then ask the
model with the stored dashboard history plus the current user message
appended (`history.concat({ role: 'user', text: message })`). -/
def chatPost (retrieval : Option (List String)) (gen : ChatRequest → Option (List String))
    (agent : Agent) (message : String) (history : List Turn) : String :=
  let context := searchDocs retrieval
  askLLM gen agent context message (history ++ [⟨"user", message⟩])

/-- The Telegram message handler's reply computation: same pipeline but the
appended history is additionally truncated with `.slice(-5)` before being
passed to `askLLM`. -/
def telegramReply (retrieval : Option (List String)) (gen : ChatRequest → Option (List String))
    (agent : Agent) (text : String) (history : List Turn) : String :=
  let context := searchDocs retrieval
  askLLM gen agent context text (lastFive (history ++ [⟨"user", text⟩]))

/-- C2: the chat operation always yields a non-empty answer even when both
backends fail: a throwing retrieval yields the empty context (`searchDocs`
returns `''`), and a failing or malformed generation call yields the fixed
fallback string rather than an exception, on both channels. -/
theorem chat_fallback_nonempty_c2 (agent : Agent) (message : String) (history : List Turn) :
    chatPost none (fun _ => none) agent message history = llmFallback ∧
    chatPost none (fun _ => some []) agent message history = llmFallback ∧
    telegramReply none (fun _ => none) agent message history = llmFallback ∧
    searchDocs none = "" ∧
    llmFallback ≠ "" := by
  refine ⟨rfl, rfl, rfl, rfl, ?_⟩
  decide

/-- C3 evidence: `searchDocs` joins the ranked payload texts with the
two-character escape sequence `\\n` (a backslash followed by `n`), not with
a newline character: on payloads `["A", "B"]` the produced context is
`"A\\nB"`, which differs from the newline-separated `"A\nB"` the spec
describes. -/
theorem searchDocs_join_literal_c3 :
    searchDocs (some ["A", "B"]) = "A\\nB" ∧ "A\\nB" ≠ "A\nB" := by
  refine ⟨rfl, ?_⟩
  decide

theorem lastFive_append_one {α : Type} (l : List α) (t : α) :
    lastFive (l ++ [t]) = l.drop (l.length + 1 - 5) ++ [t] := by
  have hle : l.length + 1 - 5 ≤ l.length := by omega
  simp only [lastFive, List.length_append, List.length_cons, List.length_nil]
  rw [List.drop_append_of_le_length hle]

theorem lastFive_lastFive {α : Type} (l : List α) :
    lastFive (lastFive l) = lastFive l := by
  apply lastFive_of_length_le
  rw [length_lastFive]
  omega

/-- C7: the prompt is built as: a system message equal to the agent's
instruction (or the generic default when it is empty), then at most the
last five history turns with role `bot` mapped to `assistant`, then one
user message carrying `context`, a blank line and the question when the
context is non-empty (just the question otherwise); the posted request
carries the agent's `temperature` and `topP`. -/
theorem askLLM_prompt_shape_c7 (agent : Agent) (context question : String) (history : List Turn) :
    (askLLMRequest agent context question history).messages =
      ⟨"system", if agent.instruction = "" then "You are a helpful assistant."
                 else agent.instruction⟩
        :: (lastFive history).map mapTurn
        ++ [⟨"user", if context = "" then question
                     else context ++ "\n\n" ++ question⟩] ∧
    ((lastFive history).map mapTurn).length ≤ 5 ∧
    List.IsSuffix (lastFive history) history ∧
    (∀ m : Turn, m.role = "bot" → mapTurn m = ⟨"assistant", m.text⟩) ∧
    (∀ m : Turn, m.role ≠ "bot" → mapTurn m = ⟨m.role, m.text⟩) ∧
    (askLLMRequest agent context question history).temperature = agent.temperature ∧
    (askLLMRequest agent context question history).top_p = agent.topP := by
  refine ⟨rfl, ?_, ?_, ?_, ?_, rfl, rfl⟩
  · rw [List.length_map, length_lastFive]
    omega
  · exact List.drop_suffix _ _
  · intro m hm
    simp [mapTurn, hm]
  · intro m hm
    simp [mapTurn, hm]

/-- Witness for C7 at a concrete agent, context and two-turn history. -/
theorem askLLM_prompt_shape_c7_witness :
    (askLLMRequest ⟨"a1", "Support", "", JVal.num 1, JVal.num 1, JVal.num 3,
        "agent_a1", ""⟩ "ctx" "q" [⟨"user", "hi"⟩, ⟨"bot", "hello"⟩]).messages =
      ⟨"system", "You are a helpful assistant."⟩
        :: (lastFive [⟨"user", "hi"⟩, ⟨"bot", "hello"⟩]).map mapTurn
        ++ [⟨"user", "ctx" ++ "\n\n" ++ "q"⟩] ∧
    mapTurn ⟨"bot", "hello"⟩ = ⟨"assistant", "hello"⟩ ∧
    (askLLMRequest ⟨"a1", "Support", "", JVal.num 1, JVal.num 1, JVal.num 3,
        "agent_a1", ""⟩ "ctx" "q" [⟨"user", "hi"⟩, ⟨"bot", "hello"⟩]).temperature =
      JVal.num 1 := by
  have h := askLLM_prompt_shape_c7
    ⟨"a1", "Support", "", JVal.num 1, JVal.num 1, JVal.num 3, "agent_a1", ""⟩
    "ctx" "q" [⟨"user", "hi"⟩, ⟨"bot", "hello"⟩]
  refine ⟨?_, h.2.2.2.1 ⟨"bot", "hello"⟩ rfl, h.2.2.2.2.2.1⟩
  simpa using h.1

/-- The message list posted by the web chat route `POST /chat/:id`: the
stored dashboard history with the current message appended is handed to
`askLLM`, which builds the prompt from it. -/
def chatPostMessages (agent : Agent) (context message : String) (history : List Turn) : List Msg :=
  askLLMMessages agent context message (history ++ [⟨"user", message⟩])

/-- The message list posted for a Telegram message: the appended history is
truncated with `.slice(-5)` before `askLLM` truncates it again. -/
def telegramReplyMessages (agent : Agent) (context text : String) (history : List Turn) : List Msg :=
  askLLMMessages agent context text (lastFive (history ++ [⟨"user", text⟩]))

/-- C10: in both channels the current question reaches the generation
backend twice — the channel handler appends it to the history passed to
`askLLM`, and `askLLM` places it again in the final user message — so the
prompt ends with two separate user messages both carrying the question's
text. -/
theorem question_sent_twice_c10 (agent : Agent) (context question : String)
    (history : List Turn) (hreq : context ≠ "" ∨ history ≠ []) :
    chatPostMessages agent context question history =
      (⟨"system", if agent.instruction = "" then "You are a helpful assistant."
                  else agent.instruction⟩
        :: (history.drop (history.length + 1 - 5)).map mapTurn)
        ++ [⟨"user", question⟩,
            ⟨"user", if context = "" then question
                     else context ++ "\n\n" ++ question⟩] ∧
    telegramReplyMessages agent context question history =
      chatPostMessages agent context question history := by
  have hmap : mapTurn ⟨"user", question⟩ = ⟨"user", question⟩ := rfl
  have hlast : lastFive (history ++ [Turn.mk "user" question]) =
      history.drop (history.length + 1 - 5) ++ [⟨"user", question⟩] :=
    lastFive_append_one history _
  constructor
  · simp only [chatPostMessages, askLLMMessages, hlast, List.map_append,
      List.map_cons, List.map_nil, hmap]
    simp
  · simp only [telegramReplyMessages, chatPostMessages, askLLMMessages,
      lastFive_lastFive]

/-- Witness for C10 at a concrete request with non-empty context. -/
theorem question_sent_twice_c10_witness :
    chatPostMessages ⟨"a1", "Support", "", JVal.num 1, JVal.num 1, JVal.num 3,
        "agent_a1", ""⟩ "ctx" "q" [] =
      (⟨"system", "You are a helpful assistant."⟩
        :: ([] : List Turn).map mapTurn)
        ++ [⟨"user", "q"⟩, ⟨"user", "ctx" ++ "\n\n" ++ "q"⟩] := by
  have h := question_sent_twice_c10
    ⟨"a1", "Support", "", JVal.num 1, JVal.num 1, JVal.num 3, "agent_a1", ""⟩
    "ctx" "q" [] (Or.inl (by decide))
  simpa using h.1

/-! ## Vector store helper (`ensureCollection`) and ingestion -/

/-- The ways the vector store's `createCollection` call can conclude. -/
inductive CreateErr where
  | alreadyExists
  | network
  | auth
  deriving DecidableEq, Repr

/-- `ensureCollection(name)`: the `createCollection` call's outcome is
abstracted as a parameter; the function wraps it in `try { ... } catch (e)
{ /* Ignore if already exists */ }`, whose empty catch block swallows every
error, so the function always completes successfully. -/
def ensureCollection (createResult : Except CreateErr Unit) : Except CreateErr Unit :=
  match createResult with
  | Except.ok _ => Except.ok ()
  | Except.error _ => Except.ok ()

/-- Counterexample to C5: a network failure of the underlying
`createCollection` call does not propagate — `ensureCollection` swallows it
and reports success. -/
theorem ensureCollection_swallows_c5_cex :
    ensureCollection (Except.error CreateErr.network) ≠
      Except.error CreateErr.network ∧
    ensureCollection (Except.error CreateErr.network) = Except.ok () := by
  refine ⟨?_, rfl⟩
  simp [ensureCollection]

/-- C5 amended: `ensureCollection` is idempotent — when the collection
already exists it succeeds silently — but every other backend failure
(network, auth) is swallowed as well: the call reports success for every
possible outcome of `createCollection` and never propagates an error. -/
theorem ensureCollection_idempotent_c5 (createResult : Except CreateErr Unit) :
    ensureCollection createResult = Except.ok () ∧
    ensureCollection (Except.error CreateErr.alreadyExists) = Except.ok () := by
  refine ⟨?_, rfl⟩
  cases createResult <;> rfl

/-- One uploaded file `{ name, text }`; an empty string models the falsy
values the handler guards against. -/
structure DocFile where
  name : String
  text : String
  deriving DecidableEq, Repr

/-- One point written to the vector store by `ingestDocument`: the target
collection and the payload's `text` and `name`. -/
structure Point where
  collection : String
  text : String
  docName : String
  deriving DecidableEq, Repr

/-- The two error replies of the file loop of `POST /admin/:id`:
HTTP 400 `'Invalid JSON file'` and HTTP 500 `'Ingest failed.'`. -/
inductive IngestErr where
  | invalidJson
  | ingestFailed
  deriving DecidableEq, Repr

/-- JavaScript `s.endsWith(suffix)`, modelled over the character list. -/
def jsEndsWith (s suffix : String) : Bool :=
  suffix.data.isSuffixOf s.data

/-- JavaScript `s.toLowerCase()` (ASCII, which covers the file names the
handler compares). -/
def jsToLower (s : String) : String :=
  ⟨s.data.map Char.toLower⟩

/-- Whether a file name takes the JSON branch:
`f.name && f.name.toLowerCase().endsWith('.json')`. -/
def isJsonName (name : String) : Bool :=
  name ≠ "" && jsEndsWith (jsToLower name) ".json"

/-- The file loop of `POST /admin/:id`.  `parseJson` abstracts
`JSON.parse` followed by `JSON.stringify` (returning `none` on a parse
failure), `ingestOk` abstracts whether `ingestDocument` succeeds for a
given text.  Files with falsy `text` are skipped; a JSON parse failure
aborts immediately with a 400; a failed ingest aborts with a 500; each
successful ingest writes one point carrying the file's name. -/
def processFiles (parseJson : String → Option String) (ingestOk : String → Bool)
    (collection : String) : List DocFile → List Point × Option IngestErr
  | [] => ([], none)
  | f :: rest =>
    if f.text = "" then processFiles parseJson ingestOk collection rest
    else
      match (if isJsonName f.name then parseJson f.text else some f.text) with
      | none => ([], some IngestErr.invalidJson)
      | some txt =>
        if ingestOk txt then
          let r := processFiles parseJson ingestOk collection rest
          (⟨collection, txt, f.name⟩ :: r.1, r.2)
        else ([], some IngestErr.ingestFailed)

/-- The text `processFiles` would ingest for a file, when it neither skips
nor rejects it. -/
def processedText (parseJson : String → Option String) (f : DocFile) : Option String :=
  if f.text = "" then none
  else if isJsonName f.name then parseJson f.text
  else some f.text

/-- The points a prefix of validated files produces. -/
def writtenPoints (parseJson : String → Option String) (collection : String)
    (files : List DocFile) : List Point :=
  files.filterMap fun f => (processedText parseJson f).map fun t => ⟨collection, t, f.name⟩

/-- Counterexample to C4: with a valid `.txt` file followed by a malformed
`.json` file, the request is rejected with the validation error, yet the
point for the preceding file has already been written — the rejection does
not happen "before any write". -/
theorem ingest_reject_after_write_c4_cex :
    processFiles (fun _ => none) (fun _ => true) "c"
        [⟨"a.txt", "hello"⟩, ⟨"b.json", "not json"⟩] =
      ([⟨"c", "hello", "a.txt"⟩], some IngestErr.invalidJson) ∧
    ([(⟨"c", "hello", "a.txt"⟩ : Point)] : List Point) ≠ [] := by
  refine ⟨?_, by decide⟩
  rfl

/-- C4 amended: a malformed `.json` file anywhere in the batch makes the
whole request fail with the validation error, and zero points are written
for the failing file and for every file after it; the points written by
the request are exactly those of the files before the failing one (which
are kept — there is no rollback), and the agent table is not persisted
(see the admin handler below, which skips `saveAgents()` on this path). -/
theorem ingest_reject_tail_unwritten_c4 (parseJson : String → Option String)
    (ingestOk : String → Bool) (collection : String)
    (pre : List DocFile) (b : DocFile) (post : List DocFile)
    (hpre : ∀ f ∈ pre, ∀ t, processedText parseJson f = some t → ingestOk t = true)
    (hprev : ∀ f ∈ pre, f.text ≠ "" → isJsonName f.name = true → parseJson f.text ≠ none)
    (hbt : b.text ≠ "") (hbj : isJsonName b.name = true) (hbp : parseJson b.text = none) :
    processFiles parseJson ingestOk collection (pre ++ b :: post) =
      (writtenPoints parseJson collection pre, some IngestErr.invalidJson) := by
  induction pre with
  | nil =>
    simp only [List.nil_append, writtenPoints, List.filterMap_nil]
    rw [processFiles, if_neg hbt]
    simp [hbj, hbp]
  | cons f fs ih =>
    have hpre' : ∀ g ∈ fs, ∀ t, processedText parseJson g = some t → ingestOk t = true :=
      fun g hg => hpre g (List.mem_cons_of_mem f hg)
    have hprev' : ∀ g ∈ fs, g.text ≠ "" → isJsonName g.name = true → parseJson g.text ≠ none :=
      fun g hg => hprev g (List.mem_cons_of_mem f hg)
    have ihr := ih hpre' hprev'
    by_cases hft : f.text = ""
    · have hskip : processedText parseJson f = none := by
        simp [processedText, hft]
      rw [List.cons_append, processFiles, if_pos hft, ihr]
      simp [writtenPoints, hskip]
    · by_cases hfj : isJsonName f.name = true
      · obtain ⟨t, ht⟩ := Option.ne_none_iff_exists'.mp
          (hprev f (List.mem_cons_self f fs) hft hfj)
        have hptxt : processedText parseJson f = some t := by
          simp [processedText, hft, hfj, ht]
        have hio : ingestOk t = true := hpre f (List.mem_cons_self f fs) t hptxt
        rw [List.cons_append, processFiles, if_neg hft]
        simp only [hfj, if_true, ht, hio, if_pos, ihr]
        simp [writtenPoints, hptxt]
      · have hfj' : isJsonName f.name = false := by
          cases h : isJsonName f.name
          · rfl
          · exact absurd h hfj
        have hptxt : processedText parseJson f = some f.text := by
          simp [processedText, hft, hfj']
        have hio : ingestOk f.text = true := hpre f (List.mem_cons_self f fs) _ hptxt
        rw [List.cons_append, processFiles, if_neg hft]
        simp only [hfj', Bool.false_eq_true, if_false, hio, if_pos, ihr]
        simp [writtenPoints, hptxt]

/-- Witness for C4's amended theorem on a concrete two-file batch. -/
theorem ingest_reject_tail_unwritten_c4_witness :
    processFiles (fun s => if s = "{}" then some "{}" else none) (fun _ => true) "c"
        [⟨"a.txt", "hello"⟩, ⟨"b.json", "not json"⟩] =
      (writtenPoints (fun s => if s = "{}" then some "{}" else none) "c"
        [⟨"a.txt", "hello"⟩], some IngestErr.invalidJson) := by
  exact ingest_reject_tail_unwritten_c4
    (fun s => if s = "{}" then some "{}" else none) (fun _ => true) "c"
    [⟨"a.txt", "hello"⟩] ⟨"b.json", "not json"⟩ []
    (by intro f hf t ht; rfl)
    (by
      intro f hf hft hfj
      simp only [List.mem_singleton] at hf
      subst hf
      exact absurd hfj (by decide))
    (by decide) (by decide) (by decide)

/-! ## Agent update handler (`POST /admin/:id`) -/

/-- The request body of `POST /admin/:id` as the handler destructures it:
`name` is `some` when a string was provided, `instruction` /
`telegramToken` are `some` when the field was defined, the numeric fields
carry the JavaScript value as received, `files` is `some` when an array
was provided (the destructuring default is `[]`), and `text` is the
single-text fallback used only when `files` is not an array. -/
structure AdminReq where
  name : Option String
  instruction : Option String
  temperature : JVal
  topP : JVal
  topK : JVal
  telegramToken : Option String
  files : Option (List DocFile)
  text : Option String

/-- `if (typeof name === 'string' && name.trim()) agent.name = name.trim();` -/
def applyName (a : Agent) (v : Option String) : Agent :=
  match v with
  | some s => if s.trim ≠ "" then { a with name := s.trim } else a
  | none => a

/-- `if (instruction !== undefined) agent.instruction = instruction;` -/
def applyInstr (a : Agent) (v : Option String) : Agent :=
  match v with
  | some s => { a with instruction := s }
  | none => a

/-- `if (!isNaN(temperature)) agent.temperature = temperature;` -/
def applyTemperature (a : Agent) (v : JVal) : Agent :=
  if jsIsNaN v then a else { a with temperature := v }

/-- `if (!isNaN(topP)) agent.topP = topP;` -/
def applyTopP (a : Agent) (v : JVal) : Agent :=
  if jsIsNaN v then a else { a with topP := v }

/-- `if (!isNaN(topK)) agent.topK = topK;` -/
def applyTopK (a : Agent) (v : JVal) : Agent :=
  if jsIsNaN v then a else { a with topK := v }

/-- `if (telegramToken !== undefined) agent.telegramToken = telegramToken;` -/
def applyToken (a : Agent) (v : Option String) : Agent :=
  match v with
  | some s => { a with telegramToken := s }
  | none => a

/-- The field-update portion of `POST /admin/:id`, applied in the source's
statement order: a non-empty trimmed string name, any defined instruction
and telegram token, and each numeric field only when `!isNaN(v)`. -/
def applyAdminFields (agent : Agent) (r : AdminReq) : Agent :=
  applyToken
    (applyTopK
      (applyTopP
        (applyTemperature
          (applyInstr (applyName agent r.name) r.instruction)
          r.temperature)
        r.topP)
      r.topK)
    r.telegramToken

/-- The document-writing portion of `POST /admin/:id`: the file loop when an
array was provided, otherwise the single-`text` fallback ingest. -/
def adminFilesStep (parseJson : String → Option String) (ingestOk : String → Bool)
    (collection : String) (r : AdminReq) : List Point × Option IngestErr :=
  match r.files with
  | some fs => processFiles parseJson ingestOk collection fs
  | none =>
    match r.text with
    | some t =>
      if t ≠ "" then
        if ingestOk t then ([⟨collection, t, "Document"⟩], none)
        else ([], some IngestErr.ingestFailed)
      else ([], none)
    | none => ([], none)

/-- The observable outcome of one `POST /admin/:id` request: the agent
record after the in-memory mutation, the points written, whether
`saveAgents()` ran, and the error reply if any. -/
structure AdminOutcome where
  agent : Agent
  written : List Point
  saved : Bool
  err : Option IngestErr
  deriving Repr

/-- `POST /admin/:id`: mutate the agent's fields, run the file loop, and
only when no file was rejected persist the agent table (`saveAgents()` is
skipped by the early `return res.status(...)` paths). -/
def adminPost (parseJson : String → Option String) (ingestOk : String → Bool)
    (agent : Agent) (r : AdminReq) : AdminOutcome :=
  let a := applyAdminFields agent r
  let fr := adminFilesStep parseJson ingestOk a.collection r
  match fr.2 with
  | some e => ⟨a, fr.1, false, some e⟩
  | none => ⟨a, fr.1, true, none⟩

theorem adminPost_agent (parseJson : String → Option String) (ingestOk : String → Bool)
    (agent : Agent) (r : AdminReq) :
    (adminPost parseJson ingestOk agent r).agent = applyAdminFields agent r := by
  unfold adminPost
  cases h : (adminFilesStep parseJson ingestOk (applyAdminFields agent r).collection r).2 <;>
    simp [h]

theorem adminPost_saved_iff (parseJson : String → Option String) (ingestOk : String → Bool)
    (agent : Agent) (r : AdminReq) :
    ((adminPost parseJson ingestOk agent r).saved = true ↔
      (adminPost parseJson ingestOk agent r).err = none) := by
  unfold adminPost
  cases h : (adminFilesStep parseJson ingestOk (applyAdminFields agent r).collection r).2 <;>
    simp [h]

@[simp] theorem applyName_none (a : Agent) : applyName a none = a := rfl

@[simp] theorem applyName_instruction (a : Agent) (v : Option String) :
    (applyName a v).instruction = a.instruction := by
  cases v with
  | none => rfl
  | some s => by_cases h : s.trim ≠ "" <;> simp [applyName, h]

@[simp] theorem applyName_temperature (a : Agent) (v : Option String) :
    (applyName a v).temperature = a.temperature := by
  cases v with
  | none => rfl
  | some s => by_cases h : s.trim ≠ "" <;> simp [applyName, h]

@[simp] theorem applyName_topP (a : Agent) (v : Option String) :
    (applyName a v).topP = a.topP := by
  cases v with
  | none => rfl
  | some s => by_cases h : s.trim ≠ "" <;> simp [applyName, h]

@[simp] theorem applyName_topK (a : Agent) (v : Option String) :
    (applyName a v).topK = a.topK := by
  cases v with
  | none => rfl
  | some s => by_cases h : s.trim ≠ "" <;> simp [applyName, h]

@[simp] theorem applyName_id (a : Agent) (v : Option String) :
    (applyName a v).id = a.id := by
  cases v with
  | none => rfl
  | some s => by_cases h : s.trim ≠ "" <;> simp [applyName, h]

@[simp] theorem applyName_coll (a : Agent) (v : Option String) :
    (applyName a v).collection = a.collection := by
  cases v with
  | none => rfl
  | some s => by_cases h : s.trim ≠ "" <;> simp [applyName, h]

@[simp] theorem applyInstr_none (a : Agent) : applyInstr a none = a := rfl

@[simp] theorem applyInstr_name (a : Agent) (v : Option String) :
    (applyInstr a v).name = a.name := by cases v <;> rfl

@[simp] theorem applyInstr_temperature (a : Agent) (v : Option String) :
    (applyInstr a v).temperature = a.temperature := by cases v <;> rfl

@[simp] theorem applyInstr_topP (a : Agent) (v : Option String) :
    (applyInstr a v).topP = a.topP := by cases v <;> rfl

@[simp] theorem applyInstr_topK (a : Agent) (v : Option String) :
    (applyInstr a v).topK = a.topK := by cases v <;> rfl

@[simp] theorem applyInstr_id (a : Agent) (v : Option String) :
    (applyInstr a v).id = a.id := by cases v <;> rfl

@[simp] theorem applyInstr_coll (a : Agent) (v : Option String) :
    (applyInstr a v).collection = a.collection := by cases v <;> rfl

@[simp] theorem applyTemperature_temperature (a : Agent) (v : JVal) :
    (applyTemperature a v).temperature = if jsIsNaN v then a.temperature else v := by
  unfold applyTemperature; split <;> rfl

@[simp] theorem applyTemperature_name (a : Agent) (v : JVal) :
    (applyTemperature a v).name = a.name := by
  unfold applyTemperature; split <;> rfl

@[simp] theorem applyTemperature_instruction (a : Agent) (v : JVal) :
    (applyTemperature a v).instruction = a.instruction := by
  unfold applyTemperature; split <;> rfl

@[simp] theorem applyTemperature_topP (a : Agent) (v : JVal) :
    (applyTemperature a v).topP = a.topP := by
  unfold applyTemperature; split <;> rfl

@[simp] theorem applyTemperature_topK (a : Agent) (v : JVal) :
    (applyTemperature a v).topK = a.topK := by
  unfold applyTemperature; split <;> rfl

@[simp] theorem applyTemperature_id (a : Agent) (v : JVal) :
    (applyTemperature a v).id = a.id := by
  unfold applyTemperature; split <;> rfl

@[simp] theorem applyTemperature_coll (a : Agent) (v : JVal) :
    (applyTemperature a v).collection = a.collection := by
  unfold applyTemperature; split <;> rfl

@[simp] theorem applyTopP_topP (a : Agent) (v : JVal) :
    (applyTopP a v).topP = if jsIsNaN v then a.topP else v := by
  unfold applyTopP; split <;> rfl

@[simp] theorem applyTopP_name (a : Agent) (v : JVal) :
    (applyTopP a v).name = a.name := by
  unfold applyTopP; split <;> rfl

@[simp] theorem applyTopP_instruction (a : Agent) (v : JVal) :
    (applyTopP a v).instruction = a.instruction := by
  unfold applyTopP; split <;> rfl

@[simp] theorem applyTopP_temperature (a : Agent) (v : JVal) :
    (applyTopP a v).temperature = a.temperature := by
  unfold applyTopP; split <;> rfl

@[simp] theorem applyTopP_topK (a : Agent) (v : JVal) :
    (applyTopP a v).topK = a.topK := by
  unfold applyTopP; split <;> rfl

@[simp] theorem applyTopP_id (a : Agent) (v : JVal) :
    (applyTopP a v).id = a.id := by
  unfold applyTopP; split <;> rfl

@[simp] theorem applyTopP_coll (a : Agent) (v : JVal) :
    (applyTopP a v).collection = a.collection := by
  unfold applyTopP; split <;> rfl

@[simp] theorem applyTopK_topK (a : Agent) (v : JVal) :
    (applyTopK a v).topK = if jsIsNaN v then a.topK else v := by
  unfold applyTopK; split <;> rfl

@[simp] theorem applyTopK_name (a : Agent) (v : JVal) :
    (applyTopK a v).name = a.name := by
  unfold applyTopK; split <;> rfl

@[simp] theorem applyTopK_instruction (a : Agent) (v : JVal) :
    (applyTopK a v).instruction = a.instruction := by
  unfold applyTopK; split <;> rfl

@[simp] theorem applyTopK_temperature (a : Agent) (v : JVal) :
    (applyTopK a v).temperature = a.temperature := by
  unfold applyTopK; split <;> rfl

@[simp] theorem applyTopK_topP (a : Agent) (v : JVal) :
    (applyTopK a v).topP = a.topP := by
  unfold applyTopK; split <;> rfl

@[simp] theorem applyTopK_id (a : Agent) (v : JVal) :
    (applyTopK a v).id = a.id := by
  unfold applyTopK; split <;> rfl

@[simp] theorem applyTopK_coll (a : Agent) (v : JVal) :
    (applyTopK a v).collection = a.collection := by
  unfold applyTopK; split <;> rfl

@[simp] theorem applyToken_name (a : Agent) (v : Option String) :
    (applyToken a v).name = a.name := by cases v <;> rfl

@[simp] theorem applyToken_instruction (a : Agent) (v : Option String) :
    (applyToken a v).instruction = a.instruction := by cases v <;> rfl

@[simp] theorem applyToken_temperature (a : Agent) (v : Option String) :
    (applyToken a v).temperature = a.temperature := by cases v <;> rfl

@[simp] theorem applyToken_topP (a : Agent) (v : Option String) :
    (applyToken a v).topP = a.topP := by cases v <;> rfl

@[simp] theorem applyToken_topK (a : Agent) (v : Option String) :
    (applyToken a v).topK = a.topK := by cases v <;> rfl

@[simp] theorem applyToken_id (a : Agent) (v : Option String) :
    (applyToken a v).id = a.id := by cases v <;> rfl

@[simp] theorem applyToken_coll (a : Agent) (v : Option String) :
    (applyToken a v).collection = a.collection := by cases v <;> rfl

theorem applyAdminFields_temperature (agent : Agent) (r : AdminReq) :
    (applyAdminFields agent r).temperature =
      if jsIsNaN r.temperature then agent.temperature else r.temperature := by
  simp [applyAdminFields]

theorem applyAdminFields_topP (agent : Agent) (r : AdminReq) :
    (applyAdminFields agent r).topP =
      if jsIsNaN r.topP then agent.topP else r.topP := by
  simp [applyAdminFields]

theorem applyAdminFields_topK (agent : Agent) (r : AdminReq) :
    (applyAdminFields agent r).topK =
      if jsIsNaN r.topK then agent.topK else r.topK := by
  simp [applyAdminFields]

theorem applyAdminFields_name_of_none (agent : Agent) (r : AdminReq)
    (h : r.name = none) :
    (applyAdminFields agent r).name = agent.name := by
  simp [applyAdminFields, h]

theorem applyAdminFields_instruction_of_none (agent : Agent) (r : AdminReq)
    (h : r.instruction = none) :
    (applyAdminFields agent r).instruction = agent.instruction := by
  simp [applyAdminFields, h]

theorem applyAdminFields_id (agent : Agent) (r : AdminReq) :
    (applyAdminFields agent r).id = agent.id := by
  simp [applyAdminFields]

theorem applyAdminFields_collection (agent : Agent) (r : AdminReq) :
    (applyAdminFields agent r).collection = agent.collection := by
  simp [applyAdminFields]

/-- Counterexample to C6: a request that updates the instruction but
carries a malformed `.json` file mutates the in-memory agent record and is
then rejected, so the agent table is not persisted after the mutation. -/
theorem admin_update_unsaved_c6_cex :
    (adminPost (fun _ => none) (fun _ => true)
        ⟨"a1", "Old", "", JVal.num 1, JVal.num 1, JVal.num 3, "agent_a1", ""⟩
        ⟨none, some "Be terse", JVal.undef, JVal.undef, JVal.undef, none,
          some [⟨"b.json", "not json"⟩], none⟩).agent.instruction = "Be terse" ∧
    ("Be terse" : String) ≠ "" ∧
    (adminPost (fun _ => none) (fun _ => true)
        ⟨"a1", "Old", "", JVal.num 1, JVal.num 1, JVal.num 3, "agent_a1", ""⟩
        ⟨none, some "Be terse", JVal.undef, JVal.undef, JVal.undef, none,
          some [⟨"b.json", "not json"⟩], none⟩).saved = false := by
  refine ⟨rfl, by decide, rfl⟩

/-- C6 amended: only explicitly provided fields are applied — an undefined
or NaN numeric field is a no-op leaving the stored value unchanged, a
numeric field is assigned exactly when its value does not coerce to NaN,
an absent name or instruction is a no-op — and the agent table is
persisted after the mutation if and only if the request was not rejected
by file validation or a failed ingest; on a rejected request the in-memory
mutation is kept without being persisted. -/
theorem admin_update_partial_fields_c6 (parseJson : String → Option String)
    (ingestOk : String → Bool) (agent : Agent) (r : AdminReq) :
    (adminPost parseJson ingestOk agent r).agent.temperature =
      (if jsIsNaN r.temperature then agent.temperature else r.temperature) ∧
    (adminPost parseJson ingestOk agent r).agent.topP =
      (if jsIsNaN r.topP then agent.topP else r.topP) ∧
    (adminPost parseJson ingestOk agent r).agent.topK =
      (if jsIsNaN r.topK then agent.topK else r.topK) ∧
    (r.name = none → (adminPost parseJson ingestOk agent r).agent.name = agent.name) ∧
    (r.instruction = none →
      (adminPost parseJson ingestOk agent r).agent.instruction = agent.instruction) ∧
    ((adminPost parseJson ingestOk agent r).saved = true ↔
      (adminPost parseJson ingestOk agent r).err = none) := by
  rw [adminPost_agent]
  exact ⟨applyAdminFields_temperature agent r, applyAdminFields_topP agent r,
    applyAdminFields_topK agent r, applyAdminFields_name_of_none agent r,
    applyAdminFields_instruction_of_none agent r,
    adminPost_saved_iff parseJson ingestOk agent r⟩

/-- Witness for C6's amended theorem at a concrete request that provides
only a new temperature. -/
theorem admin_update_partial_fields_c6_witness :
    (adminPost (fun s => some s) (fun _ => true)
        ⟨"a1", "Old", "", JVal.num 1, JVal.num 1, JVal.num 3, "agent_a1", ""⟩
        ⟨none, none, JVal.num 2, JVal.undef, JVal.nan, none, some [], none⟩).agent.temperature =
      JVal.num 2 ∧
    (adminPost (fun s => some s) (fun _ => true)
        ⟨"a1", "Old", "", JVal.num 1, JVal.num 1, JVal.num 3, "agent_a1", ""⟩
        ⟨none, none, JVal.num 2, JVal.undef, JVal.nan, none, some [], none⟩).agent.name =
      "Old" ∧
    (adminPost (fun s => some s) (fun _ => true)
        ⟨"a1", "Old", "", JVal.num 1, JVal.num 1, JVal.num 3, "agent_a1", ""⟩
        ⟨none, none, JVal.num 2, JVal.undef, JVal.nan, none, some [], none⟩).agent.topK =
      JVal.num 3 := by
  have h := admin_update_partial_fields_c6 (fun s => some s) (fun _ => true)
    ⟨"a1", "Old", "", JVal.num 1, JVal.num 1, JVal.num 3, "agent_a1", ""⟩
    ⟨none, none, JVal.num 2, JVal.undef, JVal.nan, none, some [], none⟩
  refine ⟨?_, h.2.2.2.1 rfl, ?_⟩
  · rw [h.1]; rfl
  · rw [h.2.2.1]; rfl

/-! ## Agent registry (`POST /agents` and the `agents` table) -/

/-- `const id = 'a' + Date.now();` -/
def mkAgentId (now : Nat) : String := "a" ++ toString now

/-- ``const collection = `agent_${id}`;`` -/
def mkCollection (id : String) : String := "agent_" ++ id

/-- The record written by `POST /agents`:
`{ id, name: name || 'Agent', instruction: '', temperature: 0.7, topP: 1,
topK: 3, collection, telegramToken: telegramToken || '' }`. -/
def createAgent (now : Nat) (name telegramToken : String) : Agent :=
  { id := mkAgentId now
    name := if name = "" then "Agent" else name
    instruction := ""
    temperature := JVal.num (7 / 10)
    topP := JVal.num 1
    topK := JVal.num 3
    collection := mkCollection (mkAgentId now)
    telegramToken := telegramToken }

/-- One mutation of the `agents` table: creation (`agents[id] = {...}`) or a
field update through `POST /admin/:id` (which touches every field except
`id` and `collection`). -/
inductive RegStep : (String → Option Agent) → (String → Option Agent) → Prop where
  | create (reg : String → Option Agent) (now : Nat) (name token : String) :
      RegStep reg
        (fun k => if k = mkAgentId now then some (createAgent now name token) else reg k)
  | admin (reg : String → Option Agent) (id : String) (ag : Agent) (r : AdminReq) :
      reg id = some ag →
      RegStep reg (fun k => if k = id then some (applyAdminFields ag r) else reg k)

/-- Registry states reachable from the empty table through the two mutation
paths of the source (there is no delete path). -/
inductive RegReach : (String → Option Agent) → Prop where
  | init : RegReach (fun _ => none)
  | step {reg reg' : String → Option Agent} :
      RegReach reg → RegStep reg reg' → RegReach reg'

theorem mkCollection_inj (a b : String) (h : mkCollection a = mkCollection b) :
    a = b := by
  unfold mkCollection at h
  have h2 : ("agent_" ++ a).data = ("agent_" ++ b).data := congrArg String.data h
  rw [String.data_append, String.data_append] at h2
  have h3 := List.append_cancel_left h2
  cases a; cases b; exact congrArg String.mk h3

theorem regReach_inv (reg : String → Option Agent) (hreach : RegReach reg) :
    ∀ k a, reg k = some a → a.id = k ∧ a.collection = mkCollection k := by
  induction hreach with
  | init => intro k a h; exact absurd h (by simp)
  | step _ hstep ih =>
    cases hstep with
    | create now name token =>
      intro k a h
      by_cases hk : k = mkAgentId now
      · subst hk
        simp only [if_pos rfl] at h
        cases h
        exact ⟨rfl, rfl⟩
      · simp only [if_neg hk] at h
        exact ih k a h
    | admin id ag r hag =>
      intro k a h
      by_cases hk : k = id
      · subst hk
        simp only [if_pos rfl] at h
        cases h
        obtain ⟨hid, hcoll⟩ := ih k ag hag
        exact ⟨by rw [applyAdminFields_id, hid], by rw [applyAdminFields_collection, hcoll]⟩
      · simp only [if_neg hk] at h
        exact ih k a h

/-- C8: in every reachable registry state each stored agent's collection is
derived deterministically from its id (`agent_<id>`), distinct registry
entries always have distinct collections, and no update operation ever
reassigns an agent's id or collection. -/
theorem agent_collection_unique_c8 (reg : String → Option Agent) (hreach : RegReach reg) :
    (∀ k a, reg k = some a → a.id = k ∧ a.collection = mkCollection a.id) ∧
    (∀ k₁ k₂ a₁ a₂, reg k₁ = some a₁ → reg k₂ = some a₂ → k₁ ≠ k₂ →
      a₁.collection ≠ a₂.collection) ∧
    (∀ (ag : Agent) (r : AdminReq),
      (applyAdminFields ag r).collection = ag.collection ∧
      (applyAdminFields ag r).id = ag.id) := by
  have hinv := regReach_inv reg hreach
  refine ⟨?_, ?_, ?_⟩
  · intro k a h
    obtain ⟨hid, hcoll⟩ := hinv k a h
    exact ⟨hid, by rw [hid, hcoll]⟩
  · intro k₁ k₂ a₁ a₂ h₁ h₂ hne hcoll
    obtain ⟨_, hc₁⟩ := hinv k₁ a₁ h₁
    obtain ⟨_, hc₂⟩ := hinv k₂ a₂ h₂
    rw [hc₁, hc₂] at hcoll
    exact hne (mkCollection_inj _ _ hcoll)
  · intro ag r
    exact ⟨applyAdminFields_collection ag r, applyAdminFields_id ag r⟩

/-- Witness for C8 on a registry holding one freshly created agent. -/
theorem agent_collection_unique_c8_witness :
    (createAgent 0 "Support" "").id = mkAgentId 0 ∧
    (createAgent 0 "Support" "").collection = mkCollection (mkAgentId 0) := by
  have hreach : RegReach
      (fun k => if k = mkAgentId 0 then some (createAgent 0 "Support" "")
                else (fun _ => none : String → Option Agent) k) :=
    RegReach.step RegReach.init (RegStep.create (fun _ => none) 0 "Support" "")
  have h := (agent_collection_unique_c8 _ hreach).1 (mkAgentId 0)
    (createAgent 0 "Support" "") (by simp)
  exact ⟨h.1, by rw [h.2, h.1]⟩

/-! ## Telegram bot supervisor (`startTelegramBot`, `stopTelegramBot`) -/

/-- Supervisor state: the `telegramBots` table (agent id to the token its
registered bot was created with) together with the multiset of live
polling connections, each tagged with the agent id and token it serves. -/
structure BotsState where
  table : String → Option String
  active : List (String × String)

/-- No bots at startup. -/
def botsInit : BotsState := { table := fun _ => none, active := [] }

/-- `startTelegramBot(agent)`: no token means return; an existing entry with
the same token means return (no duplicate connection); an existing entry
with a different token has its old bot's polling stopped before the new
bot is registered and started; otherwise a new bot is registered and
started. -/
def startTelegramBot (s : BotsState) (agentId token : String) : BotsState :=
  if token = "" then s
  else
    match s.table agentId with
    | some t =>
      if t = token then s
      else
        { table := fun k => if k = agentId then some token else s.table k
          active := (s.active.filter fun p => p.1 ≠ agentId) ++ [(agentId, token)] }
    | none =>
      { table := fun k => if k = agentId then some token else s.table k
        active := s.active ++ [(agentId, token)] }

/-- `stopTelegramBot(agentId)`: stop the registered bot's polling and drop
the table entry; a missing entry is a no-op. -/
def stopTelegramBot (s : BotsState) (agentId : String) : BotsState :=
  match s.table agentId with
  | some _ =>
    { table := fun k => if k = agentId then none else s.table k
      active := s.active.filter fun p => p.1 ≠ agentId }
  | none => s

/-- Supervisor states reachable through start/stop calls. -/
inductive BotsReach : BotsState → Prop where
  | init : BotsReach botsInit
  | start (s : BotsState) (agentId token : String) :
      BotsReach s → BotsReach (startTelegramBot s agentId token)
  | stop (s : BotsState) (agentId : String) :
      BotsReach s → BotsReach (stopTelegramBot s agentId)

/-- The supervisor invariant: live connections have pairwise-distinct agent
ids and each live connection matches its table entry. -/
def BotsInv (s : BotsState) : Prop :=
  s.active.Pairwise (fun p q => p.1 ≠ q.1) ∧
  ∀ p ∈ s.active, s.table p.1 = some p.2

theorem botsInv_start (s : BotsState) (agentId token : String) (h : BotsInv s) :
    BotsInv (startTelegramBot s agentId token) := by
  obtain ⟨hpw, htab⟩ := h
  unfold startTelegramBot
  by_cases ht : token = ""
  · simp only [if_pos ht]; exact ⟨hpw, htab⟩
  · rw [if_neg ht]
    cases hta : s.table agentId with
    | some t =>
      dsimp only
      by_cases htt : t = token
      · simp only [if_pos htt]; exact ⟨hpw, htab⟩
      · rw [if_neg htt]
        constructor
        · rw [List.pairwise_append]
          refine ⟨hpw.filter _, List.pairwise_singleton _ _, ?_⟩
          intro p hp q hq
          rw [List.mem_filter] at hp
          rw [List.mem_singleton] at hq
          subst hq
          simpa using of_decide_eq_true hp.2
        · intro p hp
          rw [List.mem_append] at hp
          cases hp with
          | inl hp =>
            rw [List.mem_filter] at hp
            have hne : p.1 ≠ agentId := by simpa using of_decide_eq_true hp.2
            simp only [if_neg hne]
            exact htab p hp.1
          | inr hp =>
            rw [List.mem_singleton] at hp
            subst hp
            simp
    | none =>
      constructor
      · rw [List.pairwise_append]
        refine ⟨hpw, List.pairwise_singleton _ _, ?_⟩
        intro p hp q hq
        rw [List.mem_singleton] at hq
        subst hq
        intro hpq
        have := htab p hp
        rw [hpq] at this
        rw [this] at hta
        cases hta
      · intro p hp
        rw [List.mem_append] at hp
        cases hp with
        | inl hp =>
          have hne : p.1 ≠ agentId := by
            intro hpq
            have := htab p hp
            rw [hpq] at this
            rw [this] at hta
            cases hta
          simp only [if_neg hne]
          exact htab p hp
        | inr hp =>
          rw [List.mem_singleton] at hp
          subst hp
          simp

theorem botsInv_stop (s : BotsState) (agentId : String) (h : BotsInv s) :
    BotsInv (stopTelegramBot s agentId) := by
  obtain ⟨hpw, htab⟩ := h
  unfold stopTelegramBot
  cases hta : s.table agentId with
  | some t =>
    constructor
    · exact hpw.filter _
    · intro p hp
      rw [List.mem_filter] at hp
      have hne : p.1 ≠ agentId := by simpa using of_decide_eq_true hp.2
      simp only [if_neg hne]
      exact htab p hp.1
  | none => exact ⟨hpw, htab⟩

theorem botsReach_inv (s : BotsState) (h : BotsReach s) : BotsInv s := by
  induction h with
  | init => exact ⟨List.Pairwise.nil, by intro p hp; cases hp⟩
  | start s agentId token _ ih => exact botsInv_start s agentId token ih
  | stop s agentId _ ih => exact botsInv_stop s agentId ih

theorem pairwise_filter_length_le_one (l : List (String × String)) (id : String)
    (h : l.Pairwise (fun p q => p.1 ≠ q.1)) :
    (l.filter fun p => p.1 == id).length ≤ 1 := by
  induction l with
  | nil => simp
  | cons p l ih =>
    rw [List.pairwise_cons] at h
    obtain ⟨hp, hl⟩ := h
    rw [List.filter_cons]
    by_cases hpid : p.1 == id
    · rw [if_pos hpid]
      have hnil : l.filter (fun q => q.1 == id) = [] := by
        rw [List.filter_eq_nil_iff]
        intro q hq hqid
        exact hp q hq (by
          have h1 : p.1 = id := by simpa using hpid
          have h2 : q.1 = id := by simpa using hqid
          rw [h1, h2])
      rw [hnil]
      simp
    · rw [if_neg hpid]
      exact ih hl

/-- C9: at most one live polling connection exists per agent id in every
reachable supervisor state; starting a bot whose stored credential equals
the requested one is a no-op (no duplicate connection is created); and
starting with a different non-empty credential removes the old connection
in the same step that registers the new one. -/
theorem bot_single_connection_c9 (s : BotsState) (hreach : BotsReach s)
    (agentId token newToken : String) :
    (∀ id, ((s.active.filter fun p => p.1 == id).length ≤ 1)) ∧
    (s.table agentId = some token → startTelegramBot s agentId token = s) ∧
    (s.table agentId = some token → newToken ≠ "" → newToken ≠ token →
      ((agentId, token) ∉ (startTelegramBot s agentId newToken).active ∧
       (agentId, newToken) ∈ (startTelegramBot s agentId newToken).active)) := by
  obtain ⟨hpw, _⟩ := botsReach_inv s hreach
  refine ⟨fun id => pairwise_filter_length_le_one _ id hpw, ?_, ?_⟩
  · intro h
    unfold startTelegramBot
    by_cases ht : token = ""
    · rw [if_pos ht]
    · rw [if_neg ht, h]
      dsimp only
      rw [if_pos rfl]
  · intro h hne hnetok
    unfold startTelegramBot
    rw [if_neg hne, h]
    dsimp only
    rw [if_neg (fun he => hnetok he.symm)]
    constructor
    · intro hmem
      rw [List.mem_append] at hmem
      cases hmem with
      | inl hmem =>
        rw [List.mem_filter] at hmem
        exact of_decide_eq_true hmem.2 rfl
      | inr hmem =>
        rw [List.mem_singleton] at hmem
        exact hnetok (congrArg Prod.snd hmem).symm
    · simp

/-- Witness for C9: one started bot, re-started with the same and then a
different credential. -/
theorem bot_single_connection_c9_witness :
    (((startTelegramBot botsInit "a1" "T").active.filter
        fun p => p.1 == "a1").length ≤ 1) ∧
    startTelegramBot (startTelegramBot botsInit "a1" "T") "a1" "T" =
      startTelegramBot botsInit "a1" "T" ∧
    ("a1", "T") ∉
      (startTelegramBot (startTelegramBot botsInit "a1" "T") "a1" "U").active ∧
    ("a1", "U") ∈
      (startTelegramBot (startTelegramBot botsInit "a1" "T") "a1" "U").active := by
  have h := bot_single_connection_c9 (startTelegramBot botsInit "a1" "T")
    (BotsReach.start botsInit "a1" "T" BotsReach.init) "a1" "T" "U"
  have htab : (startTelegramBot botsInit "a1" "T").table "a1" = some "T" := by
    simp [startTelegramBot, botsInit]
  have h3 := h.2.2 htab (by decide) (by decide)
  exact ⟨h.1 "a1", h.2.1 htab, h3.1, h3.2⟩

end Mealme
